import Mathlib

/-!
Verification of the Azure published-storage backend of aptly
(`azure/public.go`, current variant; `unnamed/part_000`, historical variant).

The Go code is shallowly embedded: the object-store client is an explicit
record of response functions, every operation returns its Go result together
with an explicit trace of the store calls it performed, and the Go runtime
panic on an out-of-range string slice is modelled by a dedicated result
constructor.  Strings are the cleaned, slash-separated, ASCII paths that the
operations are called with.
-/

namespace Aptly

/-- Models Go `filepath.Join(a, b)` for cleaned, relative, slash-separated
arguments (the only forms used here): empty parts are dropped, the rest are
joined with a single slash. -/
def goJoin (a b : String) : String :=
  if a = "" then b else if b = "" then a else a ++ "/" ++ b

/-- Models Go `filepath.Join(a, b, c)` on cleaned arguments. -/
def goJoin3 (a b c : String) : String :=
  goJoin (goJoin a b) c

/-- The characters of the last slash-separated component. -/
def lastComp : List Char → List Char → List Char
  | [], acc => acc.reverse
  | c :: rest, acc => if c = '/' then lastComp rest [] else lastComp rest (c :: acc)

/-- Models Go `filepath.Base` for cleaned slash paths without a trailing
slash: the last slash-separated component, `.` for the empty path. -/
def goBase (p : String) : String :=
  if p = "" then "." else String.mk (lastComp p.data [])

/-- Character membership by structural recursion (kernel-evaluable
replacement for `String.contains`). -/
def charsHas : List Char → Char → Bool
  | [], _ => false
  | c :: rest, x => c = x || charsHas rest x

/-- List-of-characters is-initial-segment test (kernel-evaluable
replacement for `String.startsWith`). -/
def charsPre : List Char → List Char → Bool
  | [], _ => true
  | _ :: _, [] => false
  | a :: as, b :: bs => a = b && charsPre as bs

/-- `s` starts with `p`. -/
def strStarts (p s : String) : Bool := charsPre p.data s.data

/-- `s` contains the character `c`. -/
def strHasChar (s : String) (c : Char) : Bool := charsHas s.data c

/-- Models the Go byte slice `s[n:]` on ASCII strings: `none` models the
runtime panic raised when `n` exceeds the length of `s`. -/
def goSliceFrom (n : Nat) (s : String) : Option String :=
  if n ≤ s.length then some (s.drop n) else none

/-- A blob entry as the listing loops consume it: full key and the
hex-rendered content MD5 (`fmt %x` of `Properties.ContentMD5`). -/
structure Blob where
  name : String
  md5hex : String
deriving DecidableEq, Repr

/-- Copy status of an asynchronous blob copy (`azblob.CopyStatusType`). -/
inductive CopyStatus where
  | pending
  | success
  | aborted
  | failed
deriving DecidableEq, Repr

/-- One observable store call made by an operation, in call order. -/
inductive Eff where
  /-- one listing page request; the argument is the prefix option the code
  put in the request (`none` when the request options carry no prefix). -/
  | listReq (q : Option String)
  /-- a put-object (upload) to the given absolute key. -/
  | put (key : String)
  /-- a plain delete of the given absolute key. -/
  | del (key : String)
  /-- a lease acquisition attempt on the given key. -/
  | acquire (key : String)
  /-- a (deferred) lease break on the given key. -/
  | breakL (key : String)
  /-- a start-copy request from source key to destination key. -/
  | startCopy (srcKey dstKey : String)
  /-- one fixed-interval sleep of the polling loop. -/
  | sleep
  /-- a properties fetch (copy-status check) on the given key. -/
  | props (key : String)
  /-- a lease renewal on the given key. -/
  | renew (key : String)
  /-- a lease-authorized delete of the given key. -/
  | delLeased (key : String)
deriving DecidableEq, Repr

/-- The structured content of the `fmt.Errorf` values the operations return;
each constructor carries the format arguments of one error site, in the
order the Go code passes them. -/
inductive Err where
  /-- listing page failure: "error listing under prefix %s in %s". -/
  | listUnder (pfx inst : String)
  /-- LinkFromPool cache-warm failure: "error caching paths under prefix"
  wrapping the listing error. -/
  | caching (inner : Err)
  /-- LinkFromPool conflict: "error putting file to %s: file already exists
  and is different: %s". -/
  | conflict (poolPath inst : String)
  /-- PutFile failure: "error uploading %s to %s". -/
  | upload (sourceFilename inst : String)
  /-- Remove failure: "error deleting %s from %s". -/
  | removeFail (path inst : String)
  /-- "error acquiring lease on destination blob %s". -/
  | dstLease (key : String)
  /-- "error acquiring lease on source blob %s". -/
  | srcLease (key : String)
  /-- start-copy failure: "error copying %s -> %s in %s" with source first. -/
  | copyStart (src dst inst : String)
  /-- "error getting destination blob properties %s". -/
  | propsFail (key : String)
  /-- "error renewing destination blob lease %s". -/
  | renewDst (key : String)
  /-- "error renewing source blob lease %s". -/
  | renewSrc (key : String)
  /-- terminal copy-status failure: "error copying %s -> %s in %s: %s";
  the code passes the destination first and the source second here. -/
  | copyFail (dst src inst : String) (status : CopyStatus)
  /-- an unwrapped error returned verbatim from the store client. -/
  | external
deriving DecidableEq, Repr

/-- Result of a Go call: normal value, returned error, or runtime panic. -/
inductive GoRes (α : Type) where
  | ok : α → GoRes α
  | err : Err → GoRes α
  | panicked : GoRes α
deriving DecidableEq, Repr

/-- The object-store client as the listing, upload and delete code paths see
it.  `pages q` is the full marker-ordered sequence of page responses the
store yields for a list request whose options carry the prefix `q`
(continuation markers are modelled by list position); an `Except.error`
element is a failing page request. -/
structure StoreClient where
  pages : Option String → List (Except Unit (List Blob))
  putBlob : String → Except Unit Unit
  delBlob : String → Except Unit Unit

/-- Strips the blobs of one page in order; `none` as soon as one blob
panics (the Go loop aborts there). -/
def stripAll (strip : Blob → Option (String × String)) :
    List Blob → Option (List (String × String))
  | [] => some []
  | b :: rest =>
    match strip b with
    | none => none
    | some e => (stripAll strip rest).map (fun es => e :: es)

/-- The marker-following page loop shared by both `internalFilelist`
variants: requests pages in order until the store reports no further pages,
aborting on the first failing page request, stripping each blob with
`strip` (whose `none` is the out-of-range slice panic), and recording one
`listReq` effect per page request made. -/
def pageWalk (mkErr : Unit → Err) (strip : Blob → Option (String × String))
    (q : Option String) :
    List (Except Unit (List Blob)) → GoRes (List (String × String)) × List Eff
  | [] => (.ok [], [])
  | .error () :: _ => (.err (mkErr ()), [.listReq q])
  | .ok blobs :: rest =>
    match stripAll strip blobs with
    | none => (.panicked, [.listReq q])
    | some entries =>
      let (r, tr) := pageWalk mkErr strip q rest
      (match r with
       | .ok more => .ok (entries ++ more)
       | other => other,
       .listReq q :: tr)

/-- Computes the absolute listing prefix of `internalFilelist`: root prefix
joined with the caller prefix, a trailing slash appended when non-empty. -/
def absPfx (rootPfx callerPfx : String) : String :=
  let p := goJoin rootPfx callerPfx
  if p = "" then p else p ++ "/"

/-- Per-blob handling of the current variant (`azure/public.go` lines
190-197): when the computed prefix is empty the key is kept whole,
otherwise `len(prefix)` bytes are sliced off the key (panicking when the
key is shorter). -/
def azureStripBlob (pfx : String) (b : Blob) : Option (String × String) :=
  if pfx = "" then some (b.name, b.md5hex)
  else (goSliceFrom pfx.length b.name).map (fun p => (p, b.md5hex))

/-- Per-blob handling of the historical variant (`unnamed/part_000` lines
180-183): `len(prefix)` bytes are sliced off unconditionally. -/
def stripBlob000 (pfx : String) (b : Blob) : Option (String × String) :=
  (goSliceFrom pfx.length b.name).map (fun p => (p, b.md5hex))

/-- `internalFilelist` of `azure/public.go` (lines 172-201): computes the
absolute prefix for stripping, but issues `ListBlobsHierarchySegment`
requests with empty options — the request sent to the store carries no
prefix at all (`pages none`), and only the flat `BlobItems` of each
response are consumed. -/
def azureInternalFilelist (c : StoreClient) (inst rootPfx callerPfx : String) :
    GoRes (List (String × String)) × List Eff :=
  let pfx := absPfx rootPfx callerPfx
  pageWalk (fun _ => .listUnder pfx inst) (azureStripBlob pfx) none (c.pages none)

/-- `internalFilelist` of `unnamed/part_000` (lines 159-194): the absolute
prefix is both sent to the store as the request prefix and stripped from
every returned key. -/
def internalFilelist000 (c : StoreClient) (inst rootPfx callerPfx : String) :
    GoRes (List (String × String)) × List Eff :=
  let pfx := absPfx rootPfx callerPfx
  pageWalk (fun _ => .listUnder pfx inst) (stripBlob000 pfx) (some pfx)
    (c.pages (some pfx))

/-- `Filelist` of `azure/public.go`: the checksum-discarding projection. -/
def azureFilelist (c : StoreClient) (inst rootPfx callerPfx : String) :
    GoRes (List String) × List Eff :=
  let (r, tr) := azureInternalFilelist c inst rootPfx callerPfx
  (match r with
   | .ok entries => .ok (entries.map Prod.fst)
   | .err e => .err e
   | .panicked => .panicked, tr)

/-- `Filelist` of `unnamed/part_000`: the checksum-discarding projection. -/
def filelist000 (c : StoreClient) (inst rootPfx callerPfx : String) :
    GoRes (List String) × List Eff :=
  let (r, tr) := internalFilelist000 c inst rootPfx callerPfx
  (match r with
   | .ok entries => .ok (entries.map Prod.fst)
   | .err e => .err e
   | .panicked => .panicked, tr)

/-- The Path Cache: the Go `map[string]string`, modelled as a lookup
function. -/
def Cache : Type := String → Option String

/-- The empty Go map (`make(map[string]string)`). -/
def emptyCache : Cache := fun _ => none

/-- Go map assignment `m[k] = v`. -/
def cacheInsert (m : Cache) (k v : String) : Cache :=
  fun x => if x = k then some v else m x

/-- The cache-warm population loop: `for i := range paths { pathCache[paths[i]] = md5s[i] }`. -/
def buildCache (entries : List (String × String)) : Cache :=
  entries.foldl (fun m e => cacheInsert m e.1 e.2) emptyCache

/-- The mutable fields of a `PublishedStorage` instance that the embedded
operations read: the container rendering used by `String()`, the root
prefix, and the Path Cache (`none` is the Go nil map). -/
structure PS where
  container : String
  pfx : String
  pathCache : Option Cache

/-- `PublishedStorage.String()`: `fmt.Sprintf("Azure:%s/%s", container, prefix)`. -/
def psString (s : PS) : String :=
  "Azure:" ++ s.container ++ "/" ++ s.pfx

/-- The caller-supplied checksum record (`utils.ChecksumInfo`), reduced to
the one field `LinkFromPool` reads. -/
structure ChecksumInfo where
  MD5 : String
deriving DecidableEq, Repr

/-- `PutFile` as `LinkFromPool` uses it: upload to `Join(prefix, path)`,
wrapping a failure as "error uploading %s to %s". -/
def putFile (c : StoreClient) (s : PS) (path sourceFilename : String) :
    GoRes Unit × List Eff :=
  let key := goJoin s.pfx path
  (match c.putBlob key with
   | .ok () => .ok ()
   | .error () => .err (.upload sourceFilename (psString s)),
   [.put key])

/-- The cache-consult-then-write core shared verbatim by both `LinkFromPool`
variants (`azure/public.go` lines 151-169, `unnamed/part_000` lines
139-156): look up `relPath`, return nil on an equal checksum, fail on a
differing checksum without `force`, otherwise `PutFile` and on success
record the source checksum in the cache. -/
def linkCore (c : StoreClient) (s : PS) (cache : Cache)
    (relPath poolPath sourcePath sourceMD5 : String) (force : Bool) :
    GoRes Unit × Cache × List Eff :=
  let proceed : GoRes Unit × Cache × List Eff :=
    let (r, tr) := putFile c s relPath sourcePath
    (match r with
     | .ok () => (.ok (), cacheInsert cache relPath sourceMD5, tr)
     | other => (other, cache, tr))
  match cache relPath with
  | some destinationMD5 =>
    if destinationMD5 = sourceMD5 then (.ok (), cache, [])
    else if !force then (.err (.conflict poolPath (psString s)), cache, [])
    else proceed
  | none => proceed

/-- `LinkFromPool` of `azure/public.go` (lines 129-170): base name from
`sourcePath` (the `fileName` argument is unused by the code), one-time cache
warm through `internalFilelist(relPath)` when the cache is nil, then the
shared consult-and-write core.  Returns the Go result, the instance state
after the call, and the trace. -/
def azureLinkFromPool (c : StoreClient) (s : PS)
    (publishedDirectory fileName sourcePath : String)
    (sourceChecksums : ChecksumInfo) (force : Bool) :
    GoRes Unit × PS × List Eff :=
  let _ := fileName
  let baseName := goBase sourcePath
  let relPath := goJoin publishedDirectory baseName
  let poolPath := goJoin s.pfx relPath
  let sourceMD5 := sourceChecksums.MD5
  match s.pathCache with
  | none =>
    let (r, tr) := azureInternalFilelist c (psString s) s.pfx relPath
    (match r with
     | .panicked => (.panicked, s, tr)
     | .err e => (.err (.caching e), s, tr)
     | .ok entries =>
       let (r2, cache2, tr2) :=
         linkCore c s (buildCache entries) relPath poolPath sourcePath sourceMD5 force
       (r2, { s with pathCache := some cache2 }, tr ++ tr2))
  | some m =>
    let (r2, cache2, tr2) := linkCore c s m relPath poolPath sourcePath sourceMD5 force
    (r2, { s with pathCache := some cache2 }, tr2)

/-- `LinkFromPool` of `unnamed/part_000` (lines 117-157): identical shape,
with the source checksum passed directly and the cache warm going through
the prefix-honoring `internalFilelist` of that variant. -/
def linkFromPool000 (c : StoreClient) (s : PS)
    (publishedDirectory sourcePath sourceMD5 : String) (force : Bool) :
    GoRes Unit × PS × List Eff :=
  let baseName := goBase sourcePath
  let relPath := goJoin publishedDirectory baseName
  let poolPath := goJoin s.pfx relPath
  match s.pathCache with
  | none =>
    let (r, tr) := internalFilelist000 c (psString s) s.pfx relPath
    (match r with
     | .panicked => (.panicked, s, tr)
     | .err e => (.err (.caching e), s, tr)
     | .ok entries =>
       let (r2, cache2, tr2) :=
         linkCore c s (buildCache entries) relPath poolPath sourcePath sourceMD5 force
       (r2, { s with pathCache := some cache2 }, tr ++ tr2))
  | some m =>
    let (r2, cache2, tr2) := linkCore c s m relPath poolPath sourcePath sourceMD5 force
    (r2, { s with pathCache := some cache2 }, tr2)

/-- `Remove` of `azure/public.go` (lines 113-120): deletes the blob at the
raw `path` argument — the root prefix is not joined — wrapping a failure
as "error deleting %s from %s". -/
def azureRemove (c : StoreClient) (s : PS) (path : String) :
    GoRes Unit × List Eff :=
  (match c.delBlob path with
   | .ok () => .ok ()
   | .error () => .err (.removeFail path (psString s)),
   [.del path])

/-- `RemoveDirs` of `azure/public.go` (lines 96-110): lists under `path`;
a listing error is swallowed (`return nil`); otherwise one delete is issued
per listed entry at `Join(prefix, path, entry)`, each delete error is
wrapped into a loop-local variable that is then discarded, and the function
returns the outer (nil) error. -/
def azureRemoveDirs (c : StoreClient) (s : PS) (path : String) :
    GoRes Unit × List Eff :=
  let (r, tr) := azureFilelist c (psString s) s.pfx path
  match r with
  | .panicked => (.panicked, tr)
  | .err _ => (.ok (), tr)
  | .ok filelist =>
    let dels := filelist.map (fun filename => Eff.del (goJoin3 s.pfx path filename))
    (.ok (), tr ++ dels)

/-- The store client as `internalCopyOrMoveBlob` sees it.  `acquire`
returns the lease id of a successful acquisition (the Go code also treats a
non-201 status as failure, folded into the error case); `start` takes
source key, destination key, metadata and the authorizing destination lease
id and returns the initial copy status; `propsStatus` is the properties
fetch returning the refreshed copy status (the code authorizes it with the
source lease id); `renew` takes key and lease id; `delLeased` is the
lease-authorized delete used for the move case. -/
structure CopyClient where
  acquire : String → Except Unit String
  start : String → String → List (String × String) → String → Except Unit CopyStatus
  propsStatus : String → String → Except Unit CopyStatus
  renew : String → String → Except Unit Unit
  delLeased : String → String → Except Unit Unit

/-- The body of the `for` loop of `internalCopyOrMoveBlob`
(`azure/public.go` lines 246-280).  Every path through the Go loop body
returns — the success branch returns, every error check in the pending
branch returns, and the `return fmt.Errorf(...)` at the bottom of the body
is not guarded by any `else`, so it fires both for a terminal
failed/aborted status and after a fully successful pending iteration (with
the refreshed status) — hence the body is embedded as a plain
non-recursive function of the status it was entered with. -/
def copyLoopBody (c : CopyClient) (s : PS)
    (srcKey dstKey srcLease dstLease src dst : String) (move : Bool)
    (copyStatus : CopyStatus) : GoRes Unit × List Eff :=
  match copyStatus with
  | .success =>
    if move then
      (match c.delLeased srcKey srcLease with
       | .ok () => .ok ()
       | .error () => .err .external,
       [.delLeased srcKey])
    else (.ok (), [])
  | .pending =>
    match c.propsStatus dstKey srcLease with
    | .error () => (.err (.propsFail dstKey), [.sleep, .props dstKey])
    | .ok refreshed =>
      match c.renew dstKey dstLease with
      | .error () => (.err (.renewDst dstKey), [.sleep, .props dstKey, .renew dstKey])
      | .ok () =>
        match c.renew srcKey srcLease with
        | .error () =>
          (.err (.renewSrc srcKey),
           [.sleep, .props dstKey, .renew dstKey, .renew srcKey])
        | .ok () =>
          (.err (.copyFail dst src (psString s) refreshed),
           [.sleep, .props dstKey, .renew dstKey, .renew srcKey])
  | other => (.err (.copyFail dst src (psString s) other), [])

/-- `internalCopyOrMoveBlob` of `azure/public.go` (lines 210-281): acquire
the destination lease (failure aborts before any defer is registered),
defer its break, acquire the source lease, defer its break, start the copy
authorized by the destination lease, then run the loop body on the initial
status.  The deferred breaks run last-in-first-out on every return after
their registration, so every trace past the source acquisition ends with
the source break followed by the destination break. -/
def internalCopyOrMoveBlob (c : CopyClient) (s : PS) (src dst : String)
    (mdata : List (String × String)) (move : Bool) : GoRes Unit × List Eff :=
  let dstKey := goJoin s.pfx dst
  match c.acquire dstKey with
  | .error () => (.err (.dstLease dstKey), [.acquire dstKey])
  | .ok dstLease =>
    let srcKey := goJoin s.pfx src
    match c.acquire srcKey with
    | .error () =>
      (.err (.srcLease srcKey),
       [.acquire dstKey, .acquire srcKey, .breakL dstKey])
    | .ok srcLease =>
      match c.start srcKey dstKey mdata dstLease with
      | .error () =>
        (.err (.copyStart src dst (psString s)),
         [.acquire dstKey, .acquire srcKey, .startCopy srcKey dstKey,
          .breakL srcKey, .breakL dstKey])
      | .ok copyStatus =>
        let (r, tr) := copyLoopBody c s srcKey dstKey srcLease dstLease src dst move copyStatus
        (r, [.acquire dstKey, .acquire srcKey, .startCopy srcKey dstKey] ++ tr
            ++ [.breakL srcKey, .breakL dstKey])

/-- `RenameFile`: copy-or-move with no metadata and `move = true`. -/
def renameFile (c : CopyClient) (s : PS) (oldName newName : String) :
    GoRes Unit × List Eff :=
  internalCopyOrMoveBlob c s oldName newName [] true

/-- `SymLink`: copy-or-move carrying the link-back metadata, `move = false`. -/
def symLink (c : CopyClient) (s : PS) (src dst : String) :
    GoRes Unit × List Eff :=
  internalCopyOrMoveBlob c s src dst [("SymLink", src)] false

/-- `HardLink` delegates to `SymLink`. -/
def hardLink (c : CopyClient) (s : PS) (src dst : String) :
    GoRes Unit × List Eff :=
  symLink c s src dst

/-! ### Concrete store instances used by the evaluation theorems -/

/-- The blobs a store honoring the documented Azure hierarchical
(delimiter `/`) listing semantics returns as flat `BlobItems` for a request
prefix `q`: keys extending `q` with no further slash; deeper keys appear
only as `BlobPrefixes`, which the listing code never reads. -/
def hierItems (container : List Blob) (q : String) : List Blob :=
  container.filter (fun b => strStarts q b.name && !(strHasChar (b.name.drop q.length) '/'))

/-- A faithful one-page hierarchical store over the given container
contents: answers any list request per `hierItems` on the request prefix
(empty when the request carries none); uploads and deletes succeed. -/
def azStore (container : List Blob) : StoreClient where
  pages q := [.ok (hierItems container (q.getD ""))]
  putBlob _ := .ok ()
  delBlob _ := .ok ()

/-- A one-page flat (non-hierarchical) store over the given container
contents, the semantics of the `ListBlobs` call of `unnamed/part_000`:
all keys extending the request prefix. -/
def flatStore (container : List Blob) : StoreClient where
  pages q := [.ok (container.filter (fun b => strStarts (q.getD "") b.name))]
  putBlob _ := .ok ()
  delBlob _ := .ok ()

/-- The container of the spec listing example: objects `a`, `test/a`,
`test/b`. -/
def exampleContainer : List Blob :=
  [⟨"a", "m1"⟩, ⟨"test/a", "m2"⟩, ⟨"test/b", "m3"⟩]

/-- The container built by the repository test `TestFilelist`: top-level
objects `a`, `b`, `c`, `testa` next to the `test/` and `lala/` trees. -/
def testContainer : List Blob :=
  [⟨"a", "m1"⟩, ⟨"b", "m2"⟩, ⟨"c", "m3"⟩, ⟨"testa", "m4"⟩,
   ⟨"test/a", "m5"⟩, ⟨"test/b", "m6"⟩,
   ⟨"lala/a", "m7"⟩, ⟨"lala/b", "m8"⟩, ⟨"lala/c", "m9"⟩]

/-- Cache lookup through the optional Path Cache, for stating cache
contents: `none` means the cache itself is nil. -/
def cacheAt (o : Option Cache) (k : String) : Option (Option String) :=
  o.map (fun m => m k)

/-! ### Supporting lemmas -/

/-- Every effect the page loop emits is one `listReq` per page request,
all carrying the request prefix it was called with. -/
theorem pageWalk_trace (mkErr : Unit → Err) (strip : Blob → Option (String × String))
    (q : Option String) (pages : List (Except Unit (List Blob))) :
    ∃ n, (pageWalk mkErr strip q pages).2 = List.replicate n (Eff.listReq q) := by
  induction pages with
  | nil => exact ⟨0, rfl⟩
  | cons page rest ih =>
    cases page with
    | error e => exact ⟨1, rfl⟩
    | ok blobs =>
      cases hs : stripAll strip blobs with
      | none => exact ⟨1, by simp [pageWalk, hs]⟩
      | some entries =>
        obtain ⟨n, hn⟩ := ih
        exact ⟨n + 1, by simp [pageWalk, hs, List.replicate_succ, hn]⟩

/-- When the looked-up checksum equals the source checksum, the shared link
core is a pure no-op: success, cache untouched, no store call. -/
theorem linkCore_hit (c : StoreClient) (s : PS) (cache : Cache)
    (relPath poolPath sourcePath sourceMD5 : String) (force : Bool)
    (h : cache relPath = some sourceMD5) :
    linkCore c s cache relPath poolPath sourcePath sourceMD5 force = (.ok (), cache, []) := by
  simp [linkCore, h]

/-- When the looked-up checksum differs and `force` is off, the shared link
core returns the conflict error naming the pool path and the instance,
with cache untouched and no store call. -/
theorem linkCore_conflict (c : StoreClient) (s : PS) (cache : Cache)
    (relPath poolPath sourcePath sourceMD5 d : String)
    (h : cache relPath = some d) (hne : d ≠ sourceMD5) :
    linkCore c s cache relPath poolPath sourcePath sourceMD5 false =
      (.err (.conflict poolPath (psString s)), cache, []) := by
  simp [linkCore, h, hne]

/-- After a successful link core run the cache maps the relative path to
the source checksum. -/
theorem linkCore_ok_md5 (c : StoreClient) (s : PS) (cache : Cache)
    (relPath poolPath sourcePath sourceMD5 : String) (force : Bool)
    (h : (linkCore c s cache relPath poolPath sourcePath sourceMD5 force).1 = .ok ()) :
    (linkCore c s cache relPath poolPath sourcePath sourceMD5 force).2.1 relPath
      = some sourceMD5 := by
  unfold linkCore at h ⊢
  cases hc : cache relPath with
  | none =>
    cases hp : c.putBlob (goJoin s.pfx relPath) with
    | ok u => simp [hc, hp, putFile, cacheInsert]
    | error e => simp [hc, hp, putFile] at h
  | some d =>
    by_cases hd : d = sourceMD5
    · simp [hc, hd]
    · by_cases hf : force
      · cases hp : c.putBlob (goJoin s.pfx relPath) with
        | ok u => simp [hc, hd, hf, hp, putFile, cacheInsert]
        | error e => simp [hc, hd, hf, hp, putFile] at h
      · simp [hc, hd, hf] at h

/-- The link core touches no cache key other than the one it was asked
about. -/
theorem linkCore_cache_other (c : StoreClient) (s : PS) (cache : Cache)
    (relPath poolPath sourcePath sourceMD5 : String) (force : Bool)
    (k : String) (hk : k ≠ relPath) :
    (linkCore c s cache relPath poolPath sourcePath sourceMD5 force).2.1 k = cache k := by
  unfold linkCore
  cases hc : cache relPath with
  | none =>
    cases hp : c.putBlob (goJoin s.pfx relPath) with
    | ok u => simp [hp, putFile, cacheInsert, hk]
    | error e => simp [hp, putFile]
  | some d =>
    by_cases hd : d = sourceMD5
    · simp [hd]
    · by_cases hf : force
      · cases hp : c.putBlob (goJoin s.pfx relPath) with
        | ok u => simp [hd, hf, hp, putFile, cacheInsert, hk]
        | error e => simp [hd, hf, hp, putFile]
      · simp [hd, hf]

/-- The link core emits at most the single upload call. -/
theorem linkCore_trace (c : StoreClient) (s : PS) (cache : Cache)
    (relPath poolPath sourcePath sourceMD5 : String) (force : Bool) :
    (linkCore c s cache relPath poolPath sourcePath sourceMD5 force).2.2 = []
    ∨ (linkCore c s cache relPath poolPath sourcePath sourceMD5 force).2.2
        = [Eff.put (goJoin s.pfx relPath)] := by
  unfold linkCore
  cases hc : cache relPath with
  | none =>
    cases hp : c.putBlob (goJoin s.pfx relPath) with
    | ok u => right; simp [hp, putFile]
    | error e => right; simp [hp, putFile]
  | some d =>
    by_cases hd : d = sourceMD5
    · left; simp [hd]
    · by_cases hf : force
      · cases hp : c.putBlob (goJoin s.pfx relPath) with
        | ok u => right; simp [hd, hf, hp, putFile]
        | error e => right; simp [hd, hf, hp, putFile]
      · left; simp [hd, hf]

/-- Replacing the Path Cache field by its own value is the identity. -/
theorem ps_eta (s : PS) (m : Cache) (h : s.pathCache = some m) :
    ({ container := s.container, pfx := s.pfx, pathCache := some m } : PS) = s := by
  cases s
  simp_all

/-- A cache hit with the source checksum makes the whole `LinkFromPool` a
no-op: success, state unchanged, empty trace. -/
theorem azureLink_cache_hit (c : StoreClient) (s : PS)
    (pd fn sp : String) (chk : ChecksumInfo) (force : Bool) (m : Cache)
    (hm : s.pathCache = some m)
    (hh : m (goJoin pd (goBase sp)) = some chk.MD5) :
    azureLinkFromPool c s pd fn sp chk force = (.ok (), s, []) := by
  simp only [azureLinkFromPool, hm]
  rw [linkCore_hit c s m _ _ _ _ force hh]
  simpa using ps_eta s m hm

/-- A successful `LinkFromPool` leaves a non-nil cache mapping the relative
path to the source checksum. -/
theorem azureLink_ok_cache (c : StoreClient) (s : PS)
    (pd fn sp : String) (chk : ChecksumInfo) (force : Bool)
    (h : (azureLinkFromPool c s pd fn sp chk force).1 = .ok ()) :
    ∃ m, (azureLinkFromPool c s pd fn sp chk force).2.1.pathCache = some m
      ∧ m (goJoin pd (goBase sp)) = some chk.MD5 := by
  unfold azureLinkFromPool at h ⊢
  cases hm : s.pathCache with
  | none =>
    simp only [hm] at h ⊢
    cases hl : (azureInternalFilelist c (psString s) s.pfx (goJoin pd (goBase sp))).1 with
    | ok entries =>
      simp only [hl] at h ⊢
      exact ⟨_, rfl, linkCore_ok_md5 _ _ _ _ _ _ _ _ h⟩
    | err e => simp [hl] at h
    | panicked => simp [hl] at h
  | some m =>
    simp only [hm] at h ⊢
    exact ⟨_, rfl, linkCore_ok_md5 _ _ _ _ _ _ _ _ h⟩

/-! ### Claim theorems -/

/-- C1: when the Path Cache maps the computed relative path
`join(publishedDirectory, base(sourcePath))` to a checksum equal to the
caller-supplied source checksum, `LinkFromPool` returns success with the
instance unchanged and an empty store-call trace (in particular no
put-object call); consequently, after any successful `LinkFromPool`, a
second call with the same arguments returns success and performs no store
call at all. -/
theorem c1_linkFromPool_idempotent (c : StoreClient) (s : PS)
    (pd fn sp : String) (chk : ChecksumInfo) (force : Bool) :
    (∀ m, s.pathCache = some m → m (goJoin pd (goBase sp)) = some chk.MD5 →
      azureLinkFromPool c s pd fn sp chk force = (.ok (), s, [])) ∧
    ((azureLinkFromPool c s pd fn sp chk force).1 = .ok () →
      azureLinkFromPool c (azureLinkFromPool c s pd fn sp chk force).2.1 pd fn sp chk force
        = (.ok (), (azureLinkFromPool c s pd fn sp chk force).2.1, [])) := by
  constructor
  · intro m hm hh
    exact azureLink_cache_hit c s pd fn sp chk force m hm hh
  · intro h
    obtain ⟨m, hm, hh⟩ := azureLink_ok_cache c s pd fn sp chk force h
    exact azureLink_cache_hit c _ pd fn sp chk force m hm hh

/-- The cache of the C1 and C2 witnesses: one entry at `pool/a` with
checksum `m1`. -/
def wCache1 : Cache := fun x => if x = "pool/a" then some "m1" else none

/-- The instance state of the C1 witness. -/
def wPS1 : PS := { container := "cnt", pfx := "", pathCache := some wCache1 }

/-- Witness for C1 at a concrete cache-hit input. -/
theorem c1_witness :
    azureLinkFromPool (azStore []) wPS1 "pool" "f" "x/a" ⟨"m1"⟩ false
      = (.ok (), wPS1, []) := by
  exact (c1_linkFromPool_idempotent (azStore []) wPS1 "pool" "f" "x/a" ⟨"m1"⟩ false).1
    wCache1 rfl (by decide)

/-- C2: when the Path Cache holds an entry for the computed relative path
whose checksum differs from the source checksum and `force` is off,
`LinkFromPool` returns the conflict error naming the destination pool path
and the instance, makes no store call at all (in particular no put), and
leaves the instance state unchanged. -/
theorem c2_linkFromPool_conflict (c : StoreClient) (s : PS)
    (pd fn sp : String) (chk : ChecksumInfo) (m : Cache) (d : String)
    (hm : s.pathCache = some m)
    (hd : m (goJoin pd (goBase sp)) = some d)
    (hne : d ≠ chk.MD5) :
    azureLinkFromPool c s pd fn sp chk false
      = (.err (.conflict (goJoin s.pfx (goJoin pd (goBase sp))) (psString s)), s, []) := by
  simp only [azureLinkFromPool, hm]
  rw [linkCore_conflict c s m _ _ _ _ d hd hne]
  simpa using ps_eta s m hm

/-- The instance state of the C2 witness: root prefix `lala`. -/
def wPS2 : PS := { container := "cnt", pfx := "lala", pathCache := some wCache1 }

/-- Witness for C2 at a concrete conflicting input. -/
theorem c2_witness :
    azureLinkFromPool (azStore []) wPS2 "pool" "f" "x/a" ⟨"m2"⟩ false
      = (.err (.conflict "lala/pool/a" "Azure:cnt/lala"), wPS2, []) := by
  have h := c2_linkFromPool_conflict (azStore []) wPS2 "pool" "f" "x/a" ⟨"m2"⟩
    wCache1 "m1" rfl (by decide) (by decide)
  exact h

/-- C7: `internalCopyOrMoveBlob` (hence `RenameFile`, `SymLink`,
`HardLink`) breaks every lease it acquired on every exit path: whenever the
destination lease acquisition succeeded the trace contains the destination
lease break, and whenever both acquisitions succeeded the trace also
contains the source lease break — for every client behavior, including
every failure path of the polling code. -/
theorem c7_lease_release (c : CopyClient) (s : PS) (src dst : String)
    (mdata : List (String × String)) (move : Bool) :
    (∀ l, c.acquire (goJoin s.pfx dst) = .ok l →
      Eff.breakL (goJoin s.pfx dst) ∈ (internalCopyOrMoveBlob c s src dst mdata move).2) ∧
    (∀ l l', c.acquire (goJoin s.pfx dst) = .ok l →
      c.acquire (goJoin s.pfx src) = .ok l' →
      Eff.breakL (goJoin s.pfx src) ∈ (internalCopyOrMoveBlob c s src dst mdata move).2) := by
  unfold internalCopyOrMoveBlob
  cases hd : c.acquire (goJoin s.pfx dst) with
  | error e => simp [hd]
  | ok dstLease =>
    cases hs : c.acquire (goJoin s.pfx src) with
    | error e => simp [hd, hs]
    | ok srcLease =>
      cases hc : c.start (goJoin s.pfx src) (goJoin s.pfx dst) mdata dstLease with
      | error e => simp [hd, hs, hc]
      | ok st => simp [hd, hs, hc]

/-- The copy client of the C7 witness: everything succeeds. -/
def okCopyClient : CopyClient where
  acquire _ := .ok "L"
  start _ _ _ _ := .ok .success
  propsStatus _ _ := .ok .success
  renew _ _ := .ok ()
  delLeased _ _ := .ok ()

/-- The instance state used by the copy witnesses. -/
def wPS0 : PS := { container := "cnt", pfx := "", pathCache := none }

/-- Witness for C7 at a concrete all-success client. -/
theorem c7_witness :
    Eff.breakL "d" ∈ (internalCopyOrMoveBlob okCopyClient wPS0 "s" "d" [] true).2 ∧
    Eff.breakL "s" ∈ (internalCopyOrMoveBlob okCopyClient wPS0 "s" "d" [] true).2 :=
  ⟨(c7_lease_release okCopyClient wPS0 "s" "d" [] true).1 "L" rfl,
   (c7_lease_release okCopyClient wPS0 "s" "d" [] true).2 "L" "L" rfl rfl⟩

/-- The copy client of the C3 evaluation: leases and renewals succeed, the
copy starts in `pending`, and the properties re-read reports `success`. -/
def pendingCopyClient : CopyClient where
  acquire _ := .ok "L"
  start _ _ _ _ := .ok .pending
  propsStatus _ _ := .ok .success
  renew _ _ := .ok ()
  delLeased _ _ := .ok ()

/-- C3 (code divergence, evaluated): when the initial copy status is
pending, the properties re-read reports success and both renewals succeed,
the polling code does not loop back — after exactly one sleep, one status
check and two renewals it returns the terminal copy-status error (carrying
the refreshed `success` status), because the `return fmt.Errorf` at the
bottom of the loop body is not guarded by an `else`.  The claim says the
coordinator loops back to re-evaluate and returns only on a terminal
status. -/
theorem c3_pending_returns_error :
    internalCopyOrMoveBlob pendingCopyClient wPS0 "s" "d" [] false
      = (.err (.copyFail "d" "s" "Azure:cnt/" .success),
         [.acquire "d", .acquire "s", .startCopy "s" "d",
          .sleep, .props "d", .renew "d", .renew "s",
          .breakL "s", .breakL "d"]) := by
  decide

/-- C8: when the enumeration performed by `RemoveDirs` fails, the call
returns success (`nil`) and its trace contains no delete call — the
listing failure is swallowed. -/
theorem c8_removeDirs_swallows_list_failure (c : StoreClient) (s : PS)
    (path : String) (e : Err)
    (h : (azureFilelist c (psString s) s.pfx path).1 = .err e) :
    (azureRemoveDirs c s path).1 = .ok ()
    ∧ ∀ k, Eff.del k ∉ (azureRemoveDirs c s path).2 := by
  have hsnd : (azureFilelist c (psString s) s.pfx path).2
      = (pageWalk (fun _ => Err.listUnder (absPfx s.pfx path) (psString s))
          (azureStripBlob (absPfx s.pfx path)) none (c.pages none)).2 := rfl
  obtain ⟨n, hn⟩ := pageWalk_trace (fun _ => Err.listUnder (absPfx s.pfx path) (psString s))
    (azureStripBlob (absPfx s.pfx path)) none (c.pages none)
  rcases hfl : azureFilelist c (psString s) s.pfx path with ⟨r, tr⟩
  rw [hfl] at h
  simp only at h
  subst h
  have htr : tr = List.replicate n (Eff.listReq none) := by
    rw [← hn, ← hsnd, hfl]
  unfold azureRemoveDirs
  rw [hfl]
  refine ⟨rfl, fun k hk => ?_⟩
  simp only at hk
  rw [htr] at hk
  have := List.eq_of_mem_replicate hk
  simp at this

/-- The failing-listing store of the C8 witness. -/
def errStore : StoreClient where
  pages _ := [.error ()]
  putBlob _ := .ok ()
  delBlob _ := .ok ()

/-- Witness for C8 at a concrete failing listing. -/
theorem c8_witness :
    (azureRemoveDirs errStore wPS0 "d").1 = .ok ()
    ∧ ∀ k, Eff.del k ∉ (azureRemoveDirs errStore wPS0 "d").2 :=
  c8_removeDirs_swallows_list_failure errStore wPS0 "d"
    (.listUnder "d/" "Azure:cnt/") rfl

/-- C9: when the enumeration succeeds, `RemoveDirs` issues exactly one
delete per listed entry, in listing order, each at the key
`join(rootPrefix, path, entry)` — its trace is the listing trace followed
by exactly those deletes, and it returns success. -/
theorem c9_removeDirs_deletes_each_entry (c : StoreClient) (s : PS)
    (path : String) (entries : List (String × String))
    (h : (azureInternalFilelist c (psString s) s.pfx path).1 = .ok entries) :
    (azureRemoveDirs c s path).1 = .ok ()
    ∧ (azureRemoveDirs c s path).2
        = (azureInternalFilelist c (psString s) s.pfx path).2
          ++ entries.map (fun e => Eff.del (goJoin3 s.pfx path e.1)) := by
  have hfl : azureFilelist c (psString s) s.pfx path
      = (.ok (entries.map Prod.fst), (azureInternalFilelist c (psString s) s.pfx path).2) := by
    unfold azureFilelist
    rcases hint : azureInternalFilelist c (psString s) s.pfx path with ⟨r, tr⟩
    rw [hint] at h
    simp only at h
    subst h
    rfl
  unfold azureRemoveDirs
  rw [hfl]
  simp [List.map_map, Function.comp]

/-- Witness for C9: deleting under the root of the example container. -/
theorem c9_witness :
    (azureRemoveDirs (azStore exampleContainer) wPS0 "").1 = .ok ()
    ∧ (azureRemoveDirs (azStore exampleContainer) wPS0 "").2
        = (azureInternalFilelist (azStore exampleContainer) (psString wPS0) wPS0.pfx "").2
          ++ [("a", "m1")].map (fun e => Eff.del (goJoin3 wPS0.pfx "" e.1)) :=
  c9_removeDirs_deletes_each_entry (azStore exampleContainer) wPS0 "" [("a", "m1")]
    (by decide)

/-- C4 (code divergence, evaluated): on the store holding objects `a`,
`test/a`, `test/b` under root prefix `""` — the listing example of the spec
and of the repository test — the current `Filelist` returns `["a"]` for
the empty prefix (its single page request carries no prefix restriction
and only the top-level items of the hierarchical response are consumed)
and panics for prefix `test` (it slices five bytes off the top-level key
`a`), instead of the claimed `["a","test/a","test/b"]` and `["a","b"]`. -/
theorem c4_filelist_divergence :
    azureFilelist (azStore exampleContainer) "Azure:cnt/" "" ""
      = (.ok ["a"], [.listReq none])
    ∧ azureFilelist (azStore exampleContainer) "Azure:cnt/" "" "test"
      = (.panicked, [.listReq none]) := by
  decide

/-- The historical variant behaves as the claim describes on the same
store: its request carries the absolute prefix and the results are the
keys under it with the prefix stripped. -/
theorem filelist000_example :
    filelist000 (flatStore exampleContainer) "Azure:cnt/" "" ""
      = (.ok ["a", "test/a", "test/b"], [.listReq (some "")])
    ∧ filelist000 (flatStore exampleContainer) "Azure:cnt/" "" "test"
      = (.ok ["a", "b"], [.listReq (some "test/")]) := by
  decide

/-- C5 (code divergence, evaluated): on an instance with root prefix
`lala`, `Remove("pool/a.deb")` deletes the key `pool/a.deb` itself — the
root prefix is not joined, so the delete lands outside `lala/`, against
the claimed key `join("lala", "pool/a.deb")`. -/
theorem c5_remove_escapes_root :
    azureRemove (azStore []) { container := "cnt", pfx := "lala", pathCache := none }
        "pool/a.deb"
      = (.ok (), [.del "pool/a.deb"])
    ∧ "pool/a.deb" ≠ goJoin "lala" "pool/a.deb" := by
  decide

/-- C10 (code divergence, evaluated): on an instance with root prefix
`lala` over the container built by the repository test `TestFilelist`,
`Filelist("")` panics: the single page request carries no prefix, the
store answers with the top-level key `a`, and slicing `len("lala/") = 5`
bytes off it is out of range. -/
theorem c10_filelist_panics :
    azureFilelist (azStore testContainer) "Azure:cnt/lala" "lala" ""
      = (.panicked, [.listReq none]) := by
  decide

/-- The historical variant is total on the same input: the request carries
the absolute prefix, every returned key extends it, and the stripped
listing is the one the repository test expects. -/
theorem filelist000_prefixed_example :
    filelist000 (flatStore testContainer) "Azure:cnt/lala" "lala" ""
      = (.ok ["a", "b", "c"], [.listReq (some "lala/")]) := by
  decide

/-- The container of the C6 counterexample: two package files under the
directory `pool/x`. -/
def c6Container : List Blob :=
  [⟨"pool/x/a.deb", "m1"⟩, ⟨"pool/x/b.deb", "m2"⟩]

/-- The store of the C6 counterexample: flat listing over `c6Container`,
uploads failing (so the call leaves the cache exactly as the warm-up
populated it). -/
def c6Client : StoreClient where
  pages q := (flatStore c6Container).pages q
  putBlob _ := .error ()
  delBlob _ := .ok ()

/-- Counterexample to C6: on the first `LinkFromPool` call with
`publishedDirectory = "pool/x"` and source base name `a.deb`, the only
enumeration request is for `pool/x/a.deb/` — the requested relative path
itself treated as a directory — not for the containing directory
`pool/x/`, and the warmed cache therefore holds no entry at all, even
though the store holds the pair for the requested path (checksum `m1`,
equal to the source checksum) under that containing directory. -/
theorem c6_counterexample :
    (linkFromPool000 c6Client wPS0 "pool/x" "pool/c1/a.deb" "m1" false).2.2
      = [.listReq (some "pool/x/a.deb/"), .put "pool/x/a.deb"]
    ∧ cacheAt (linkFromPool000 c6Client wPS0 "pool/x" "pool/c1/a.deb" "m1" false).2.1.pathCache
        "a.deb" = some none
    ∧ cacheAt (linkFromPool000 c6Client wPS0 "pool/x" "pool/c1/a.deb" "m1" false).2.1.pathCache
        "pool/x/a.deb" = some none
    ∧ (⟨"pool/x/a.deb", "m1"⟩ : Blob) ∈ c6Container
    ∧ strStarts "pool/x/" "pool/x/a.deb" = true := by
  decide

/-- Unfolding of the historical `LinkFromPool` on a nil cache, keyed on the
outcome of the warm-up enumeration. -/
theorem link000_nil (c : StoreClient) (s : PS) (pd sp md5 : String) (force : Bool)
    (hnil : s.pathCache = none) :
    linkFromPool000 c s pd sp md5 force
      = match (internalFilelist000 c (psString s) s.pfx (goJoin pd (goBase sp))).1 with
        | .panicked =>
          (.panicked, s, (internalFilelist000 c (psString s) s.pfx (goJoin pd (goBase sp))).2)
        | .err e =>
          (.err (.caching e), s,
           (internalFilelist000 c (psString s) s.pfx (goJoin pd (goBase sp))).2)
        | .ok entries =>
          let core := linkCore c s (buildCache entries) (goJoin pd (goBase sp))
            (goJoin s.pfx (goJoin pd (goBase sp))) sp md5 force
          (core.1, { s with pathCache := some core.2.1 },
           (internalFilelist000 c (psString s) s.pfx (goJoin pd (goBase sp))).2 ++ core.2.2) := by
  unfold linkFromPool000
  rw [hnil]

/-- Unfolding of the historical `LinkFromPool` on a present cache. -/
theorem link000_cached (c : StoreClient) (s : PS) (pd sp md5 : String) (force : Bool)
    (m : Cache) (hm : s.pathCache = some m) :
    linkFromPool000 c s pd sp md5 force
      = (let core := linkCore c s m (goJoin pd (goBase sp))
           (goJoin s.pfx (goJoin pd (goBase sp))) sp md5 force
         (core.1, { s with pathCache := some core.2.1 }, core.2.2)) := by
  unfold linkFromPool000
  rw [hm]

/-- C6 as amended: on the first `LinkFromPool` call (cache nil) the cache
is populated by one enumeration whose every page request carries the
prefix `join(root, relPath) + "/"` — the requested relative path itself
treated as a directory, not its containing directory; if the enumeration
fails the call returns the wrapped error and the instance (hence the nil
cache) is unchanged; if it succeeds, every cache key other than the
requested relative path carries exactly what the enumeration returned;
and when the cache is already present no list request is made at all, so
the population happens at most once per instance. -/
theorem c6_amended_cache_warm (c : StoreClient) (s : PS)
    (pd sp md5 : String) (force : Bool) :
    (s.pathCache = none →
      (∀ q, Eff.listReq q ∈ (linkFromPool000 c s pd sp md5 force).2.2 →
        q = some (absPfx s.pfx (goJoin pd (goBase sp))))
      ∧ (∀ e, (internalFilelist000 c (psString s) s.pfx (goJoin pd (goBase sp))).1 = .err e →
          (linkFromPool000 c s pd sp md5 force).1 = .err (.caching e)
          ∧ (linkFromPool000 c s pd sp md5 force).2.1 = s)
      ∧ (∀ entries,
          (internalFilelist000 c (psString s) s.pfx (goJoin pd (goBase sp))).1 = .ok entries →
          ∀ k, k ≠ goJoin pd (goBase sp) →
            cacheAt (linkFromPool000 c s pd sp md5 force).2.1.pathCache k
              = some (buildCache entries k)))
    ∧ (∀ m, s.pathCache = some m →
        ∀ q, Eff.listReq q ∉ (linkFromPool000 c s pd sp md5 force).2.2) := by
  have hwalk := pageWalk_trace
    (fun _ => Err.listUnder (absPfx s.pfx (goJoin pd (goBase sp))) (psString s))
    (stripBlob000 (absPfx s.pfx (goJoin pd (goBase sp))))
    (some (absPfx s.pfx (goJoin pd (goBase sp))))
    (c.pages (some (absPfx s.pfx (goJoin pd (goBase sp)))))
  obtain ⟨n, hn⟩ := hwalk
  have hsnd : (internalFilelist000 c (psString s) s.pfx (goJoin pd (goBase sp))).2
      = List.replicate n (Eff.listReq (some (absPfx s.pfx (goJoin pd (goBase sp))))) := hn
  constructor
  · intro hnil
    rw [link000_nil c s pd sp md5 force hnil]
    refine ⟨?_, ?_, ?_⟩
    · intro q hq
      cases hr : (internalFilelist000 c (psString s) s.pfx (goJoin pd (goBase sp))).1 with
      | panicked =>
        rw [hr] at hq
        simp only [hsnd] at hq
        injection List.eq_of_mem_replicate hq
      | err e =>
        rw [hr] at hq
        simp only [hsnd] at hq
        injection List.eq_of_mem_replicate hq
      | ok entries =>
        rw [hr] at hq
        simp only [hsnd, List.mem_append] at hq
        rcases hq with hq | hq
        · injection List.eq_of_mem_replicate hq
        · rcases linkCore_trace c s (buildCache entries) (goJoin pd (goBase sp))
            (goJoin s.pfx (goJoin pd (goBase sp))) sp md5 force with h0 | h0 <;>
            rw [h0] at hq <;> simp at hq
    · intro e he
      rw [he]
      exact ⟨rfl, rfl⟩
    · intro entries he k hk
      rw [he]
      simp only [cacheAt, Option.map_some]
      exact congrArg some (linkCore_cache_other c s (buildCache entries)
        (goJoin pd (goBase sp)) (goJoin s.pfx (goJoin pd (goBase sp))) sp md5 force k hk)
  · intro m hm q hq
    rw [link000_cached c s pd sp md5 force m hm] at hq
    simp only at hq
    rcases linkCore_trace c s m (goJoin pd (goBase sp))
      (goJoin s.pfx (goJoin pd (goBase sp))) sp md5 force with h0 | h0 <;>
      rw [h0] at hq <;> simp at hq

/-- Witness for the amended C6 at a concrete failing enumeration: the
error is returned wrapped and the instance (with its nil cache) is
unchanged. -/
theorem c6_amended_witness :
    (linkFromPool000 errStore wPS0 "pool/x" "pool/c1/a.deb" "m1" false).1
      = .err (.caching (.listUnder "pool/x/a.deb/" "Azure:cnt/"))
    ∧ (linkFromPool000 errStore wPS0 "pool/x" "pool/c1/a.deb" "m1" false).2.1 = wPS0 :=
  ((c6_amended_cache_warm errStore wPS0 "pool/x" "pool/c1/a.deb" "m1" false).1 rfl).2.1
    (.listUnder "pool/x/a.deb/" "Azure:cnt/") (by decide)

end Aptly
